import Mathlib

/-!
Shallow embedding of `main.go` of DincerY/weather-api: a rate-limited,
cache-aside HTTP gateway for a weather data provider.

Modelling conventions:
* Wall-clock time and fractional token counts are rationals (`ℚ`).
* The external collaborators (Redis, the upstream HTTP service, the
  environment) are passed in as an explicit `Ext` record of behaviours;
  the Redis contents are an association list threaded through handlers.
* `golang.org/x/time/rate.Limiter` is embedded as a token bucket
  (`Limiter.allow`), following `reserveN`: advance refills
  `elapsed * limit` tokens capped at `burst`; a call is allowed iff
  `1 ≤ burst` and at least one token is available after the refill, and
  state is only updated on an allowed call.  A fresh limiter behaves on
  its first call as a full bucket (in Go the zero `last` time makes the
  first advance saturate at `burst` for any positive limit).
-/

namespace WeatherApi

/-- Association-list lookup (first binding wins), modelling Go map reads
and Redis `GET` on the key space actually stored. -/
def assocLookup {α : Type} : List (String × α) → String → Option α
  | [], _ => none
  | (k, v) :: rest, key => if k = key then some v else assocLookup rest key

/-- Association-list insert/overwrite (new binding shadows old ones),
modelling Go map writes and Redis `SET`. -/
def assocInsert {α : Type} (m : List (String × α)) (k : String) (v : α) :
    List (String × α) :=
  (k, v) :: m

/-- Redis contents: key-value pairs of strings. -/
abbrev Cache := List (String × String)

/-- Per-client token bucket state of `golang.org/x/time/rate.Limiter`. -/
structure Limiter where
  limit : ℚ
  burst : ℕ
  tokens : ℚ
  last : ℚ
deriving DecidableEq

/-- `rate.NewLimiter(limit, burst)` created at time `t`: on its first use
the bucket is full (Go's zero-valued `last` makes the first refill
saturate at `burst`). -/
def Limiter.new (limit : ℚ) (burst : ℕ) (t : ℚ) : Limiter :=
  ⟨limit, burst, (burst : ℚ), t⟩

/-- `Limiter.Allow()` at wall-clock time `t`: refill
`(t - last) * limit` tokens capped at `burst`, then admit iff one token
can be consumed (and `1 ≤ burst`); Go's `reserveN` leaves the limiter
state untouched on a denied call. -/
def Limiter.allow (l : Limiter) (t : ℚ) : Bool × Limiter :=
  let last := if t < l.last then t else l.last
  let tokens := min (l.tokens + l.limit * (t - last)) (l.burst : ℚ)
  if 1 ≤ l.burst ∧ 1 ≤ tokens then
    (true, { l with tokens := tokens - 1, last := t })
  else
    (false, l)

/-- The `ipLimiterMap` closure state of `rateLimiterMiddleware`. -/
abbrev LimiterMap := List (String × Limiter)

/-- One pass through the body of `rateLimiterMiddleware`'s handler for a
client identifier `ip` at time `t`: look the limiter up, creating and
storing a fresh one on first sight, then call `Allow`.  Go mutates the
stored `*rate.Limiter` in place; here the updated limiter is stored
back under `ip`. -/
def rateLimiterStep (limit : ℚ) (burst : ℕ) (m : LimiterMap) (ip : String)
    (t : ℚ) : Bool × LimiterMap :=
  let limiter := (assocLookup m ip).getD (Limiter.new limit burst t)
  let (ok, limiter') := limiter.allow t
  (ok, assocInsert m ip limiter')

/-- `getIP`: split the request's remote address into host and port and
return the host; on a split error the function returns `""`.
`net.SplitHostPort` is Go standard library (an external collaborator),
so its behaviour is a parameter `split`. -/
def getIP (split : String → Option (String × String)) (remoteAddr : String) :
    String :=
  match split remoteAddr with
  | none => ""
  | some (host, _) => host

/-- The `Weather` JSON payload structure (`Day` entries inlined as a
list of records). -/
structure Day where
  datetime : String
  temp : Float
  feelslike : Float
  windspeed : Float
  visibility : Float
  uvindex : Float
  sunrise : String
  sunset : String
  icon : String
  description : String

/-- Top-level weather payload decoded from the upstream JSON body. -/
structure Weather where
  latitude : Float
  longitude : Float
  resolvedAddress : String
  timezone : String
  description : String
  days : List Day

/-- Behaviour of the external collaborators for one request: Redis
transport, the upstream HTTP service, Go's `encoding/json`, and the
process environment. -/
structure Ext where
  /-- `true` when the Redis `GET` call fails (transport error); a `GET`
  for an absent key also returns an error (`redis.Nil`). -/
  getErr : Bool
  /-- `some e` when the Redis `SET` call fails with error `e`. -/
  setErr : Option String
  /-- Error of `http.NewRequestWithContext`, when it fails. -/
  newRequestErr : Option String
  /-- `client.Do` on a URL: either a network/timeout error or a
  response status code with its body bytes. -/
  doResult : String → Except String (Nat × String)
  /-- Error of `io.ReadAll` on the response body, when it fails. -/
  readBodyErr : Option String
  /-- `json.Unmarshal` of a body into `Weather`. -/
  unmarshal : String → Except String Weather
  /-- `json.Marshal` of a `Weather` value into bytes. -/
  marshal : Weather → Except String String
  /-- `os.Getenv`. -/
  env : String → String

/-- The upstream request URL built in `getWeatherValue`. -/
def weatherURL (country key : String) : String :=
  "https://weather.visualcrossing.com/VisualCrossingWebServices/rest/services/timeline/"
    ++ country ++ "/today?unitGroup=metric&include=days&key=" ++ key
    ++ "&contentType=json"

/-- `getWeatherValue(country, key)`: reject an empty API key, default an
empty country to `"maltepe"`, build the URL, issue the HTTP request, and
demand a 200 status and a decodable body. -/
def getWeatherValue (ext : Ext) (country key : String) :
    Except String Weather :=
  if key = "" then .error "API key cannot be empty"
  else
    let country := if country = "" then "maltepe" else country
    let url := weatherURL country key
    match ext.newRequestErr with
    | some e => .error ("failed to create HTTP request: " ++ e)
    | none =>
      match ext.doResult url with
      | .error e => .error ("failed to make HTTP request: " ++ e)
      | .ok (status, body) =>
        match ext.readBodyErr with
        | some e => .error ("failed to read response body: " ++ e)
        | none =>
          if status ≠ 200 then
            .error ("status code : " ++ toString status ++ " , message : "
              ++ body)
          else ext.unmarshal body

/-- The network side effects of a `getWeatherValue` call: exactly one
upstream HTTP request (`client.Do`) is issued unless the key check or
request construction fails first. -/
def getWeatherCalls (ext : Ext) (country key : String) : List String :=
  if key = "" then []
  else
    let country := if country = "" then "maltepe" else country
    match ext.newRequestErr with
    | some _ => []
    | none => [weatherURL country key]

/-- `getRedisValue(redisDB, key)`: a successful `GET` yields the stored
string; an absent key or transport error yields `none` (Go returns a
non-nil error in both cases, which the caller treats uniformly). -/
def getRedisValue (ext : Ext) (cache : Cache) (key : String) :
    Option String :=
  if ext.getErr then none else assocLookup cache key

/-- `setRedisValue(redisDB, key, value, 5*time.Minute)`: result of the
Redis `SET` call (`none` = success).  The store applies the write only
on success; `redisMiddleware` below threads the updated contents. -/
def setRedisValue (ext : Ext) (_key _value : String) : Option String :=
  ext.setErr

/-- An observable action of one `redisMiddleware` request, in program
order. -/
inductive Effect where
  | cacheGet (key : String)
  | envRead (name : String)
  | upstreamFetch (url : String)
  | cacheSet (key : String) (value : String)
deriving DecidableEq

/-- What the handler writes back to the HTTP response. -/
inductive Response where
  | body (data : String)
  | httpError (msg : String) (status : Nat)
  | tooManyRequests
deriving DecidableEq

/-- The handler returned by `redisMiddleware(redisDB)` applied to a
request whose `country` query parameter is given: try Redis first; on
any `GET` error fall through to the upstream fetch, marshal, store the
bytes in Redis for 5 minutes, and write them back.  Result: the
response, the Redis contents after the request, and the trace of
external actions. -/
def redisMiddleware (ext : Ext) (cache : Cache) (country : String) :
    Response × Cache × List Effect :=
  match getRedisValue ext cache country with
  | some val => (.body val, cache, [.cacheGet country])
  | none =>
    let key := ext.env "API_KEY"
    let pre : List Effect := [.cacheGet country, .envRead "API_KEY"]
    if key = "" then
      (.httpError "Api key could not found" 500, cache, pre)
    else
      let fetch : List Effect :=
        (getWeatherCalls ext country key).map .upstreamFetch
      match getWeatherValue ext country key with
      | .error e =>
        (.httpError ("getWeatherValue Error : " ++ e) 500, cache,
          pre ++ fetch)
      | .ok weather =>
        match ext.marshal weather with
        | .error _ =>
          (.httpError "Error marshalling JSON" 500, cache, pre ++ fetch)
        | .ok data =>
          match setRedisValue ext country data with
          | some _ =>
            (.httpError "Error setting value in Redis" 500, cache,
              pre ++ fetch ++ [.cacheSet country data])
          | none =>
            (.body data, assocInsert cache country data,
              pre ++ fetch ++ [.cacheSet country data])

/-- `rateLimiterMiddleware(next, limit, burst)` around `ip := getIP(r)`:
the admission decision and updated limiter map for one request. -/
def rateLimiterMiddleware (split : String → Option (String × String))
    (limit : ℚ) (burst : ℕ) (m : LimiterMap) (remoteAddr : String)
    (t : ℚ) : Bool × LimiterMap :=
  rateLimiterStep limit burst m (getIP split remoteAddr) t

/-- The composed `/weather` handler: rate limit by client IP; denied
requests get the 429 JSON error, admitted requests run
`redisMiddleware`. -/
def weatherHandler (split : String → Option (String × String))
    (limit : ℚ) (burst : ℕ) (ext : Ext) (m : LimiterMap) (cache : Cache)
    (remoteAddr country : String) (t : ℚ) :
    Response × LimiterMap × Cache × List Effect :=
  let (ok, m') := rateLimiterMiddleware split limit burst m remoteAddr t
  if ok then
    let (resp, cache', fx) := redisMiddleware ext cache country
    (resp, m', cache', fx)
  else
    (.tooManyRequests, m', cache, [])

/-- A sequence of `Allow` calls on one limiter at the given times. -/
def allowTimes (l : Limiter) : List ℚ → List Bool × Limiter
  | [] => ([], l)
  | t :: ts =>
    let (ok, l') := l.allow t
    let (rest, l'') := allowTimes l' ts
    (ok :: rest, l'')

/-- A sequence of requests from the same client identifier `ip` at the
given times, threading the limiter map. -/
def stepRun (limit : ℚ) (burst : ℕ) (m : LimiterMap) (ip : String) :
    List ℚ → List Bool × LimiterMap
  | [] => ([], m)
  | t :: ts =>
    let (ok, m') := rateLimiterStep limit burst m ip t
    let (oks, m'') := stepRun limit burst m' ip ts
    (ok :: oks, m'')

/-!
Interleaving model of two request flows racing through the
check-or-create section of `rateLimiterMiddleware` for the same client
identifier.  The Go code reads the plain map (`ipLimiterMap[ip]`) and,
on a miss, writes a freshly constructed limiter back — two separate
memory operations with no lock around them, so the steps of concurrent
flows interleave (Go in fact makes racing map access undefined; the
model keeps each map operation atomic, which is the most charitable
reading).
-/

/-- Program counter of one flow inside the check-or-create section. -/
inductive RacePC where
  | atLookup
  | atInsert
  | done
deriving DecidableEq

/-- One flow: where it is paused and whether it has constructed a new
limiter. -/
structure RaceFlow where
  pc : RacePC
  created : Bool
deriving DecidableEq

/-- The shared map (abstracted to whether the identifier is present)
and the two flows. -/
structure RaceState where
  mapHas : Bool
  flowA : RaceFlow
  flowB : RaceFlow
deriving DecidableEq

/-- Execute the next atomic operation of one flow: the map read decides
between proceeding (entry exists) and constructing a limiter; the map
write publishes the constructed limiter. -/
def flowStep (f : RaceFlow) (mapHas : Bool) : RaceFlow × Bool :=
  match f.pc with
  | .atLookup =>
    if mapHas then ({ f with pc := .done }, mapHas)
    else ({ f with pc := .atInsert }, mapHas)
  | .atInsert => ({ f with pc := .done, created := true }, true)
  | .done => (f, mapHas)

/-- Interleaved execution: `true` schedules flow A, `false` flow B. -/
def raceRun (s : RaceState) : List Bool → RaceState
  | [] => s
  | pickA :: sched =>
    if pickA then
      let (f, h) := flowStep s.flowA s.mapHas
      raceRun { s with flowA := f, mapHas := h } sched
    else
      let (f, h) := flowStep s.flowB s.mapHas
      raceRun { s with flowB := f, mapHas := h } sched

/-- Both flows are first sightings of the same identifier: the map has
no entry yet. -/
def raceInit : RaceState :=
  ⟨false, ⟨.atLookup, false⟩, ⟨.atLookup, false⟩⟩

/-- The check-or-create section executed atomically (as under a mutex):
lookup and insert-if-absent as one indivisible step. -/
def atomicCheckOrCreate (s : RaceState) (pickA : Bool) : RaceState :=
  if pickA then
    if s.mapHas then { s with flowA := { s.flowA with pc := .done } }
    else { s with flowA := ⟨.done, true⟩, mapHas := true }
  else
    if s.mapHas then { s with flowB := { s.flowB with pc := .done } }
    else { s with flowB := ⟨.done, true⟩, mapHas := true }

/-- Interleaved execution when check-or-create is atomic. -/
def atomicRun (s : RaceState) : List Bool → RaceState
  | [] => s
  | pickA :: sched => atomicRun (atomicCheckOrCreate s pickA) sched

/-! ### Trace observations -/

/-- Number of Redis `GET` calls in a trace. -/
def countCacheGets (fx : List Effect) : ℕ :=
  fx.countP fun e => match e with | .cacheGet _ => true | _ => false

/-- Number of Redis `SET` calls in a trace. -/
def countCacheSets (fx : List Effect) : ℕ :=
  fx.countP fun e => match e with | .cacheSet _ _ => true | _ => false

/-- `true` iff the trace contains no Redis `SET` call. -/
def noCacheSet (fx : List Effect) : Bool :=
  fx.all fun e => match e with | .cacheSet _ _ => false | _ => true

/-- `true` iff every Redis `SET` in the trace uses key `key`. -/
def setsOnlyKey (fx : List Effect) (key : String) : Bool :=
  fx.all fun e => match e with | .cacheSet k _ => k == key | _ => true

/-- `true` iff every upstream request in the trace uses URL `url`. -/
def fetchesOnlyURL (fx : List Effect) (url : String) : Bool :=
  fx.all fun e => match e with | .upstreamFetch u => u == url | _ => true

/-! ### Concrete external worlds for scenarios -/

/-- A fixed decoded weather payload for concrete scenarios. -/
def weather0 : Weather := ⟨0, 0, "", "", "", []⟩

/-- All collaborators behave: Redis reachable, upstream answers 200
with body `"B"` decoding to `weather0`, which marshals to `"PAYLOAD"`,
and `API_KEY` is `"k"`. -/
def extHappy : Ext where
  getErr := false
  setErr := none
  newRequestErr := none
  doResult := fun _ => .ok (200, "B")
  readBodyErr := none
  unmarshal := fun _ => .ok weather0
  marshal := fun _ => .ok "PAYLOAD"
  env := fun _ => "k"

/-- As `extHappy`, but the Redis `SET` call fails. -/
def extSetFail : Ext := { extHappy with setErr := some "redis down" }

/-- As `extHappy`, but the upstream answers a 500 status. -/
def ext500 : Ext := { extHappy with doResult := fun _ => .ok (500, "ERR") }

/-- As `extHappy`, but the `API_KEY` environment variable is empty. -/
def extNoKey : Ext := { extHappy with env := fun _ => "" }

/-! ### Limiter lemmas -/

theorem Limiter.allow_self_pos (r : ℚ) (b k : ℕ) (t : ℚ) (hk1 : 1 ≤ k)
    (hk : k ≤ b) :
    Limiter.allow ⟨r, b, (k : ℚ), t⟩ t = (true, ⟨r, b, ((k - 1 : ℕ) : ℚ), t⟩) := by
  have hb : 1 ≤ b := hk1.trans hk
  have hkb : (k : ℚ) ≤ (b : ℚ) := by exact_mod_cast hk
  have hone : (1 : ℚ) ≤ (k : ℚ) := by exact_mod_cast hk1
  simp only [Limiter.allow, lt_irrefl, if_false, sub_self, mul_zero,
    add_zero, min_eq_left hkb]
  rw [if_pos ⟨hb, hone⟩]
  have : ((k - 1 : ℕ) : ℚ) = (k : ℚ) - 1 := by
    push_cast [Nat.cast_sub hk1]
    ring
  simp [this]

theorem Limiter.allow_self_zero (r : ℚ) (b : ℕ) (t : ℚ) :
    Limiter.allow ⟨r, b, (0 : ℚ), t⟩ t = (false, ⟨r, b, (0 : ℚ), t⟩) := by
  have h0 : (0 : ℚ) ≤ (b : ℚ) := by positivity
  simp only [Limiter.allow, lt_irrefl, if_false, sub_self, mul_zero,
    add_zero, min_eq_left h0]
  rw [if_neg]
  rintro ⟨-, h1⟩
  linarith

theorem allowTimes_replicate (r : ℚ) (b : ℕ) (t : ℚ) :
    ∀ (n k : ℕ), k ≤ b →
      allowTimes ⟨r, b, (k : ℚ), t⟩ (List.replicate n t) =
        (List.replicate (min k n) true ++ List.replicate (n - min k n) false,
          ⟨r, b, ((k - min k n : ℕ) : ℚ), t⟩) := by
  intro n
  induction n with
  | zero => intro k hk; simp [allowTimes]
  | succ n ih =>
    intro k hk
    rcases Nat.eq_zero_or_pos k with hk0 | hk1
    · subst hk0
      have ihz := ih 0 (Nat.zero_le b)
      simp only [Nat.cast_zero] at ihz
      simp [List.replicate_succ, allowTimes, Limiter.allow_self_zero, ihz]
    · have ih' := ih (k - 1) (le_trans (Nat.sub_le k 1) hk)
      rw [List.replicate_succ]
      simp only [allowTimes, Limiter.allow_self_pos r b k t hk1 hk, ih']
      have e1 : min k (n + 1) = min (k - 1) n + 1 := by omega
      rw [e1]
      have e2 : n + 1 - (min (k - 1) n + 1) = n - min (k - 1) n := by omega
      have e3 : k - (min (k - 1) n + 1) = k - 1 - min (k - 1) n := by omega
      rw [e2, e3, List.replicate_succ, List.cons_append]

theorem Limiter.allow_refill (r : ℚ) (hr : 0 < r) (b : ℕ) (hb : 1 ≤ b)
    (t w : ℚ) (hw : 1 / r ≤ w) :
    (Limiter.allow ⟨r, b, (0 : ℚ), t⟩ (t + w)).1 = true := by
  have hw0 : 0 ≤ w := le_trans (by positivity) hw
  have hlt : ¬ t + w < t := by linarith
  have hone : (1 : ℚ) ≤ r * w := by
    have := mul_le_mul_of_nonneg_left hw hr.le
    rwa [mul_one_div_cancel hr.ne'] at this
  have hbq : (1 : ℚ) ≤ (b : ℚ) := by exact_mod_cast hb
  simp only [Limiter.allow, if_neg hlt, zero_add, add_sub_cancel_left]
  rw [if_pos ⟨hb, le_min hone hbq⟩]

/-! ### Map-level lemmas -/

theorem assocLookup_insert {α : Type} (m : List (String × α))
    (k k' : String) (v : α) :
    assocLookup (assocInsert m k v) k' =
      if k = k' then some v else assocLookup m k' := rfl

theorem stepRun_tracked (r : ℚ) (b : ℕ) (ip : String) :
    ∀ (ts : List ℚ) (m : LimiterMap) (l : Limiter),
      assocLookup m ip = some l →
      (stepRun r b m ip ts).1 = (allowTimes l ts).1 ∧
        assocLookup (stepRun r b m ip ts).2 ip = some (allowTimes l ts).2 := by
  intro ts
  induction ts with
  | nil => intro m l hm; simpa [stepRun, allowTimes] using hm
  | cons t ts ih =>
    intro m l hm
    rcases hal : l.allow t with ⟨ok, l'⟩
    have hs : rateLimiterStep r b m ip t = (ok, assocInsert m ip l') := by
      simp [rateLimiterStep, hm, hal]
    have hm' : assocLookup (assocInsert m ip l') ip = some l' := by
      simp [assocLookup_insert]
    obtain ⟨h1, h2⟩ := ih (assocInsert m ip l') l' hm'
    exact ⟨by simp [stepRun, allowTimes, hs, hal, h1],
      by simp [stepRun, allowTimes, hs, hal, h2]⟩

theorem stepRun_fresh (r : ℚ) (b : ℕ) (ip : String) (t : ℚ) (ts : List ℚ)
    (m : LimiterMap) (hm : assocLookup m ip = none) :
    (stepRun r b m ip (t :: ts)).1 =
        (allowTimes (Limiter.new r b t) (t :: ts)).1 ∧
      assocLookup (stepRun r b m ip (t :: ts)).2 ip =
        some (allowTimes (Limiter.new r b t) (t :: ts)).2 := by
  rcases hal : (Limiter.new r b t).allow t with ⟨ok, l'⟩
  have hs : rateLimiterStep r b m ip t = (ok, assocInsert m ip l') := by
    simp [rateLimiterStep, hm, hal]
  have hm' : assocLookup (assocInsert m ip l') ip = some l' := by
    simp [assocLookup_insert]
  obtain ⟨h1, h2⟩ := stepRun_tracked r b ip ts (assocInsert m ip l') l' hm'
  exact ⟨by simp [stepRun, allowTimes, hs, hal, h1],
    by simp [stepRun, allowTimes, hs, hal, h2]⟩

theorem stepRun_other (r : ℚ) (b : ℕ) (ip ip' : String) (hne : ip ≠ ip') :
    ∀ (ts : List ℚ) (m : LimiterMap),
      assocLookup (stepRun r b m ip ts).2 ip' = assocLookup m ip' := by
  intro ts
  induction ts with
  | nil => intro m; simp [stepRun]
  | cons t ts ih =>
    intro m
    rcases hal :
        ((assocLookup m ip).getD (Limiter.new r b t)).allow t with ⟨ok, l'⟩
    have hs : rateLimiterStep r b m ip t = (ok, assocInsert m ip l') := by
      simp [rateLimiterStep, hal]
    simp [stepRun, hs, ih, assocLookup_insert, hne]

theorem rateLimiterStep_congr (r : ℚ) (b : ℕ) (t : ℚ) (ip : String)
    (m₁ m₂ : LimiterMap) (h : assocLookup m₁ ip = assocLookup m₂ ip) :
    (rateLimiterStep r b m₁ ip t).1 = (rateLimiterStep r b m₂ ip t).1 := by
  rcases hal :
      ((assocLookup m₂ ip).getD (Limiter.new r b t)).allow t with ⟨ok, l'⟩
  simp [rateLimiterStep, h, hal]

/-! ### Race-model lemmas -/

theorem atomicCheckOrCreate_safe (s : RaceState) (pickA : Bool)
    (h : (s.mapHas = false →
            s.flowA.created = false ∧ s.flowB.created = false) ∧
         ¬(s.flowA.created = true ∧ s.flowB.created = true)) :
    ((atomicCheckOrCreate s pickA).mapHas = false →
        (atomicCheckOrCreate s pickA).flowA.created = false ∧
          (atomicCheckOrCreate s pickA).flowB.created = false) ∧
      ¬((atomicCheckOrCreate s pickA).flowA.created = true ∧
          (atomicCheckOrCreate s pickA).flowB.created = true) := by
  rcases s with ⟨mapHas, fa, fb⟩
  cases pickA <;> cases mapHas <;>
    simp_all [atomicCheckOrCreate]

theorem atomicRun_safe (sched : List Bool) :
    ∀ (s : RaceState),
      ((s.mapHas = false →
          s.flowA.created = false ∧ s.flowB.created = false) ∧
        ¬(s.flowA.created = true ∧ s.flowB.created = true)) →
      ¬((atomicRun s sched).flowA.created = true ∧
          (atomicRun s sched).flowB.created = true) := by
  induction sched with
  | nil => intro s h; exact h.2
  | cons pickA sched ih =>
    intro s h
    exact ih _ (atomicCheckOrCreate_safe s pickA h)

/-! ### Resolver lemmas -/

theorem getWeatherCalls_shape (ext : Ext) (country key : String) :
    getWeatherCalls ext country key = [] ∨
      getWeatherCalls ext country key =
        [weatherURL (if country = "" then "maltepe" else country) key] := by
  unfold getWeatherCalls
  split
  · exact Or.inl rfl
  · cases ext.newRequestErr <;> simp

theorem getWeatherCalls_of_ok (ext : Ext) (country key : String)
    (w : Weather) (hkey : key ≠ "")
    (h : getWeatherValue ext country key = .ok w) :
    getWeatherCalls ext country key =
      [weatherURL (if country = "" then "maltepe" else country) key] := by
  cases hnr : ext.newRequestErr with
  | some e =>
    exfalso
    simp [getWeatherValue, hkey, hnr] at h
  | none => simp [getWeatherCalls, hkey, hnr]

theorem redisMiddleware_cases (ext : Ext) (cache : Cache) (country : String) :
    (∃ val, getRedisValue ext cache country = some val ∧
      redisMiddleware ext cache country = (.body val, cache, [.cacheGet country])) ∨
    (getRedisValue ext cache country = none ∧ ext.env "API_KEY" = "" ∧
      redisMiddleware ext cache country =
        (.httpError "Api key could not found" 500, cache,
          [.cacheGet country, .envRead "API_KEY"])) ∨
    (getRedisValue ext cache country = none ∧ ext.env "API_KEY" ≠ "" ∧
      (∃ e, getWeatherValue ext country (ext.env "API_KEY") = .error e ∧
        redisMiddleware ext cache country =
          (.httpError ("getWeatherValue Error : " ++ e) 500, cache,
            [.cacheGet country, .envRead "API_KEY"] ++
              (getWeatherCalls ext country (ext.env "API_KEY")).map
                .upstreamFetch))) ∨
    (getRedisValue ext cache country = none ∧ ext.env "API_KEY" ≠ "" ∧
      (∃ w e', getWeatherValue ext country (ext.env "API_KEY") = .ok w ∧
        ext.marshal w = .error e' ∧
        redisMiddleware ext cache country =
          (.httpError "Error marshalling JSON" 500, cache,
            [.cacheGet country, .envRead "API_KEY"] ++
              (getWeatherCalls ext country (ext.env "API_KEY")).map
                .upstreamFetch))) ∨
    (getRedisValue ext cache country = none ∧ ext.env "API_KEY" ≠ "" ∧
      (∃ w data e', getWeatherValue ext country (ext.env "API_KEY") = .ok w ∧
        ext.marshal w = .ok data ∧ ext.setErr = some e' ∧
        redisMiddleware ext cache country =
          (.httpError "Error setting value in Redis" 500, cache,
            ([.cacheGet country, .envRead "API_KEY"] ++
              (getWeatherCalls ext country (ext.env "API_KEY")).map
                .upstreamFetch) ++ [.cacheSet country data]))) ∨
    (getRedisValue ext cache country = none ∧ ext.env "API_KEY" ≠ "" ∧
      (∃ w data, getWeatherValue ext country (ext.env "API_KEY") = .ok w ∧
        ext.marshal w = .ok data ∧ ext.setErr = none ∧
        redisMiddleware ext cache country =
          (.body data, assocInsert cache country data,
            ([.cacheGet country, .envRead "API_KEY"] ++
              (getWeatherCalls ext country (ext.env "API_KEY")).map
                .upstreamFetch) ++ [.cacheSet country data]))) := by
  cases hget : getRedisValue ext cache country with
  | some val => exact Or.inl ⟨val, rfl, by simp [redisMiddleware, hget]⟩
  | none =>
    by_cases henv : ext.env "API_KEY" = ""
    · exact Or.inr (Or.inl ⟨rfl, henv, by simp [redisMiddleware, hget, henv]⟩)
    · cases hfetch : getWeatherValue ext country (ext.env "API_KEY") with
      | error e =>
        refine Or.inr (Or.inr (Or.inl ⟨rfl, henv, e, rfl, ?_⟩))
        simp [redisMiddleware, hget, henv, hfetch]
      | ok w =>
        cases hmar : ext.marshal w with
        | error e' =>
          refine Or.inr (Or.inr (Or.inr (Or.inl ⟨rfl, henv, w, e', rfl, hmar, ?_⟩)))
          simp [redisMiddleware, hget, henv, hfetch, hmar]
        | ok data =>
          cases hset : ext.setErr with
          | some e' =>
            refine Or.inr (Or.inr (Or.inr (Or.inr (Or.inl
              ⟨rfl, henv, w, data, e', rfl, hmar, rfl, ?_⟩))))
            simp [redisMiddleware, setRedisValue, hget, henv, hfetch, hmar, hset]
          | none =>
            refine Or.inr (Or.inr (Or.inr (Or.inr (Or.inr
              ⟨rfl, henv, w, data, rfl, hmar, rfl, ?_⟩))))
            simp [redisMiddleware, setRedisValue, hget, henv, hfetch, hmar, hset]

/-! ### Claims -/

theorem Limiter.allow_fields (l : Limiter) (t : ℚ) :
    (l.allow t).2.limit = l.limit ∧ (l.allow t).2.burst = l.burst := by
  simp only [Limiter.allow]
  split_ifs <;> simp

/-- C3: with rate `r > 0` tokens/second and burst `b ≥ 1`, a client
issuing `b + 1` requests within a negligible time window (here: at one
instant `t`) has requests `1..b` admitted and request `b + 1` denied;
after waiting at least `1 / r` seconds the next request is admitted
again; and a denied request is answered with the too-many-requests
response.  The configured instance `rate = 2`, `burst = 10` (11
requests: 10 allowed, the 11th denied) is exercised in the witness. -/
theorem C3_burst_window_denial (r : ℚ) (hr : 0 < r) (b : ℕ) (hb : 1 ≤ b)
    (ip : String) (t w : ℚ) (hw : 1 / r ≤ w) :
    (stepRun r b [] ip (List.replicate (b + 1) t)).1 =
        List.replicate b true ++ [false] ∧
      (rateLimiterStep r b (stepRun r b [] ip (List.replicate (b + 1) t)).2
          ip (t + w)).1 = true ∧
      (∀ split ext m cache addr country t',
        (rateLimiterMiddleware split r b m addr t').1 = false →
          (weatherHandler split r b ext m cache addr country t').1 =
            .tooManyRequests) := by
  have hrep : List.replicate (b + 1) t = t :: List.replicate b t :=
    List.replicate_succ t b
  have hAT := allowTimes_replicate r b t (b + 1) b le_rfl
  have hmin : min b (b + 1) = b := min_eq_left (Nat.le_succ b)
  rw [hmin] at hAT
  have hsub1 : b + 1 - b = 1 := by omega
  have hsub0 : b - b = 0 := by omega
  rw [hsub1, hsub0] at hAT
  have hnew : Limiter.new r b t = ⟨r, b, (b : ℚ), t⟩ := rfl
  obtain ⟨h1, h2⟩ := stepRun_fresh r b ip t (List.replicate b t) [] rfl
  rw [← hrep] at h1 h2
  rw [hnew, hAT] at h1 h2
  refine ⟨?_, ?_, ?_⟩
  · simpa using h1
  · simp only [Nat.cast_zero] at h2
    rcases hal : Limiter.allow ⟨r, b, (0 : ℚ), t⟩ (t + w) with ⟨ok, l'⟩
    have := Limiter.allow_refill r hr b hb t w hw
    rw [hal] at this
    simp [rateLimiterStep, h2, hal, this]
  · intro split ext m cache addr country t' hdeny
    rcases hml : rateLimiterMiddleware split r b m addr t' with ⟨ok, m'⟩
    rw [hml] at hdeny
    simp at hdeny
    subst hdeny
    simp [weatherHandler, hml]

theorem C3_burst_window_denial_witness :
    (stepRun 2 10 [] "1.2.3.4" (List.replicate 11 0)).1 =
        List.replicate 10 true ++ [false] ∧
      (rateLimiterStep 2 10
          (stepRun 2 10 [] "1.2.3.4" (List.replicate 11 0)).2 "1.2.3.4"
          (0 + 1 / 2)).1 = true ∧
      (weatherHandler (fun _ => none) 2 10 extHappy
          [("", ⟨2, 10, 0, 0⟩)] [] "x" "" 0).1 =
        .tooManyRequests := by
  obtain ⟨h1, h2, h3⟩ :=
    C3_burst_window_denial 2 (by norm_num) 10 (by norm_num) "1.2.3.4" 0
      (1 / 2) (by norm_num)
  refine ⟨h1, h2,
    h3 (fun _ => none) extHappy [("", ⟨2, 10, 0, 0⟩)] [] "x" "" 0 ?_⟩
  simp [rateLimiterMiddleware, getIP, rateLimiterStep, assocLookup,
    Limiter.allow_self_zero]

/-- C7: on first sight of a client identifier the middleware constructs
a fresh limiter with the configured rate and burst and stores its
post-call state under that identifier; a later request with the same
identifier uses exactly the stored limiter; and a request by one
identifier never touches another identifier's entry, so after any
sequence of requests by client `ip` (for instance, exhausting its
burst) client `ip'` gets the same admission decision as before. -/
theorem C7_per_client_limiter_registry (r : ℚ) (b : ℕ) (m : LimiterMap)
    (ip ip' : String) (t : ℚ) (l : Limiter) (ts : List ℚ) :
    (assocLookup m ip = none →
        rateLimiterStep r b m ip t =
          (((Limiter.new r b t).allow t).1,
            assocInsert m ip ((Limiter.new r b t).allow t).2) ∧
          ((Limiter.new r b t).allow t).2.limit = r ∧
          ((Limiter.new r b t).allow t).2.burst = b) ∧
      (assocLookup m ip = some l →
        rateLimiterStep r b m ip t =
          ((l.allow t).1, assocInsert m ip (l.allow t).2)) ∧
      (ip ≠ ip' →
        assocLookup (rateLimiterStep r b m ip t).2 ip' = assocLookup m ip') ∧
      (ip ≠ ip' →
        (rateLimiterStep r b (stepRun r b m ip ts).2 ip' t).1 =
          (rateLimiterStep r b m ip' t).1) := by
  refine ⟨?_, ?_, ?_, ?_⟩
  · intro hm
    rcases hal : (Limiter.new r b t).allow t with ⟨ok, l'⟩
    have hf := Limiter.allow_fields (Limiter.new r b t) t
    rw [hal] at hf
    exact ⟨by simp [rateLimiterStep, hm, hal], hf.1, hf.2⟩
  · intro hm
    rcases hal : l.allow t with ⟨ok, l'⟩
    simp [rateLimiterStep, hm, hal]
  · intro hne
    rcases hal : ((assocLookup m ip).getD (Limiter.new r b t)).allow t
      with ⟨ok, l'⟩
    simp [rateLimiterStep, hal, assocLookup_insert, hne]
  · intro hne
    exact rateLimiterStep_congr r b t ip' _ m
      (stepRun_other r b ip ip' hne ts m)

theorem C7_per_client_limiter_registry_witness :
    (rateLimiterStep 2 10 [] "a" 0 =
        (((Limiter.new 2 10 0).allow 0).1,
          assocInsert [] "a" ((Limiter.new 2 10 0).allow 0).2) ∧
        ((Limiter.new 2 10 0).allow 0).2.limit = 2 ∧
        ((Limiter.new 2 10 0).allow 0).2.burst = 10) ∧
      rateLimiterStep 2 10 [("a", Limiter.new 2 10 0)] "a" 0 =
        (((Limiter.new 2 10 0).allow 0).1,
          assocInsert [("a", Limiter.new 2 10 0)] "a"
            ((Limiter.new 2 10 0).allow 0).2) ∧
      assocLookup (rateLimiterStep 2 10 [] "a" 0).2 "b" =
        assocLookup ([] : LimiterMap) "b" ∧
      (rateLimiterStep 2 10 (stepRun 2 10 [] "a" [0]).2 "b" 0).1 =
        (rateLimiterStep 2 10 [] "b" 0).1 :=
  ⟨(C7_per_client_limiter_registry 2 10 [] "a" "b" 0 (Limiter.new 2 10 0)
      [0]).1 rfl,
    (C7_per_client_limiter_registry 2 10 [("a", Limiter.new 2 10 0)] "a" "b"
      0 (Limiter.new 2 10 0) [0]).2.1 rfl,
    (C7_per_client_limiter_registry 2 10 [] "a" "b" 0 (Limiter.new 2 10 0)
      [0]).2.2.1 (by decide),
    (C7_per_client_limiter_registry 2 10 [] "a" "b" 0 (Limiter.new 2 10 0)
      [0]).2.2.2 (by decide)⟩

/-- C9: when the remote address cannot be split into host and port,
`getIP` yields the empty string, so the request is rate limited under
the bucket keyed `""`; all such requests share that single bucket —
after `b` same-instant requests through one unparseable address, a
first-ever request through a different unparseable address is already
denied, so per-client isolation fails among them. -/
theorem C9_unparseable_remote_addr
    (split : String → Option (String × String)) (addr addr' : String)
    (m : LimiterMap) (r : ℚ) (b : ℕ) (t : ℚ)
    (h : split addr = none) (h' : split addr' = none) (hb : 1 ≤ b) :
    getIP split addr = "" ∧
      rateLimiterMiddleware split r b m addr t = rateLimiterStep r b m "" t ∧
      (rateLimiterMiddleware split r b
          (stepRun r b [] "" (List.replicate b t)).2 addr' t).1 = false := by
  refine ⟨by simp [getIP, h], by simp [rateLimiterMiddleware, getIP, h], ?_⟩
  have hrep : List.replicate b t = t :: List.replicate (b - 1) t := by
    cases b with
    | zero => omega
    | succ n => simp [List.replicate_succ]
  obtain ⟨-, h2⟩ := stepRun_fresh r b "" t (List.replicate (b - 1) t) [] rfl
  rw [← hrep] at h2
  have hAT := allowTimes_replicate r b t b b le_rfl
  rw [min_self, Nat.sub_self] at hAT
  have hnew : Limiter.new r b t = ⟨r, b, (b : ℚ), t⟩ := rfl
  rw [hnew, hAT] at h2
  simp only [Nat.cast_zero] at h2
  rcases hal : Limiter.allow ⟨r, b, (0 : ℚ), t⟩ t with ⟨ok, l'⟩
  have hz := Limiter.allow_self_zero r b t
  rw [hal] at hz
  have hok : ok = false := congrArg Prod.fst hz
  simp [rateLimiterMiddleware, getIP, h', rateLimiterStep, h2, hal, hok]

theorem C9_unparseable_remote_addr_witness :
    getIP (fun _ => none) "badaddr" = "" ∧
      rateLimiterMiddleware (fun _ => none) 2 10 [] "badaddr" 0 =
        rateLimiterStep 2 10 [] "" 0 ∧
      (rateLimiterMiddleware (fun _ => none) 2 10
          (stepRun 2 10 [] "" (List.replicate 10 0)).2 "otheraddr" 0).1 =
        false :=
  C9_unparseable_remote_addr (fun _ => none) "badaddr" "otheraddr" [] 2 10 0
    rfl rfl (by norm_num)

/-- C4: the claim says the identifier-to-limiter map is protected so
that lookup and insert-if-absent are atomic as a unit.  The Go code
uses a plain map with no lock, so the two operations of concurrent
first-sightings interleave: under the schedule A-lookup, B-lookup,
A-insert, B-insert both flows construct a limiter for the same
identifier (first conjunct), whereas an atomic check-or-create never
lets both flows construct one under any schedule (second conjunct). -/
theorem C4_unsynchronized_check_or_create :
    ((raceRun raceInit [true, false, true, false]).flowA.created = true ∧
      (raceRun raceInit [true, false, true, false]).flowB.created = true) ∧
    ∀ sched : List Bool,
      ((atomicRun raceInit sched).flowA.created &&
        (atomicRun raceInit sched).flowB.created) = false := by
  refine ⟨by decide, ?_⟩
  intro sched
  have h := atomicRun_safe sched raceInit (by decide)
  cases hA : (atomicRun raceInit sched).flowA.created <;>
    cases hB : (atomicRun raceInit sched).flowB.created <;> simp_all

/-- C1 counterexample: with a successful upstream fetch whose payload
marshals to `"PAYLOAD"` and a failing Redis `SET` (`extSetFail`), the
handler answers the 500 `"Error setting value in Redis"` response and
does not return the fetched payload — contradicting the claim that the
payload is still returned with no request-level error status. -/
theorem C1_counterexample :
    getWeatherValue extSetFail "paris" (extSetFail.env "API_KEY") =
        .ok weather0 ∧
      extSetFail.marshal weather0 = .ok "PAYLOAD" ∧
      (redisMiddleware extSetFail [] "paris").1 =
        .httpError "Error setting value in Redis" 500 ∧
      (redisMiddleware extSetFail [] "paris").1 ≠ .body "PAYLOAD" :=
  ⟨rfl, rfl, rfl, by decide⟩

/-- C1 (amended): when the cache `Set` call fails after a successful
upstream fetch, the handler responds with the server-error status
`"Error setting value in Redis"`; the fetched payload is not written to
the response and the store is unchanged.  (The code, contrary to the
spec, does fail the user-visible request on a cache-write failure.) -/
theorem C1_set_failure_fails_request (ext : Ext) (cache : Cache)
    (country : String) (w : Weather) (data e : String)
    (hmiss : getRedisValue ext cache country = none)
    (henv : ext.env "API_KEY" ≠ "")
    (hfetch : getWeatherValue ext country (ext.env "API_KEY") = .ok w)
    (hmar : ext.marshal w = .ok data)
    (hset : ext.setErr = some e) :
    (redisMiddleware ext cache country).1 =
        .httpError "Error setting value in Redis" 500 ∧
      (redisMiddleware ext cache country).1 ≠ .body data ∧
      (redisMiddleware ext cache country).2.1 = cache := by
  refine ⟨?_, ?_, ?_⟩ <;>
    simp [redisMiddleware, setRedisValue, hmiss, henv, hfetch, hmar, hset]

theorem C1_set_failure_fails_request_witness :
    (redisMiddleware extSetFail [] "paris").1 =
        .httpError "Error setting value in Redis" 500 ∧
      (redisMiddleware extSetFail [] "paris").1 ≠ .body "PAYLOAD" ∧
      (redisMiddleware extSetFail [] "paris").2.1 = [] :=
  C1_set_failure_fails_request extSetFail [] "paris" weather0 "PAYLOAD"
    "redis down" rfl (by decide) rfl rfl rfl

/-- C10: on an admitted cache miss with `API_KEY` unset or empty, the
handler fails with the 500 `"Api key could not found"` response before
any upstream fetch or cache write is attempted (the trace stops at the
`GET` and the environment read, the store is unchanged), while a cache
hit for the same key is served without consulting the environment at
all (its trace is the single `GET`). -/
theorem C10_missing_api_key (ext : Ext) (cache : Cache) (country : String) :
    (getRedisValue ext cache country = none → ext.env "API_KEY" = "" →
        redisMiddleware ext cache country =
          (.httpError "Api key could not found" 500, cache,
            [.cacheGet country, .envRead "API_KEY"])) ∧
      (∀ val, getRedisValue ext cache country = some val →
        redisMiddleware ext cache country =
          (.body val, cache, [.cacheGet country])) := by
  constructor
  · intro hmiss henv
    simp [redisMiddleware, hmiss, henv]
  · intro val hval
    simp [redisMiddleware, hval]

theorem C10_missing_api_key_witness :
    redisMiddleware extNoKey [] "paris" =
        (.httpError "Api key could not found" 500, [],
          [.cacheGet "paris", .envRead "API_KEY"]) ∧
      redisMiddleware extHappy [("paris", "V")] "paris" =
        (.body "V", [("paris", "V")], [.cacheGet "paris"]) :=
  ⟨(C10_missing_api_key extNoKey [] "paris").1 rfl rfl,
    (C10_missing_api_key extHappy [("paris", "V")] "paris").2 "V" rfl⟩

/-- C2 counterexample: with `"maltepe"` already cached (value `"V"`)
and all collaborators healthy, a request with an empty `country` does
not read the default key's entry: the `GET` uses `""` and misses, the
upstream is fetched, the `SET` stores under `""`, and the response is
the fresh `"PAYLOAD"` rather than the cached `"V"`; afterwards `""` and
`"maltepe"` hold distinct cache entries. -/
theorem C2_counterexample :
    (redisMiddleware extHappy [("maltepe", "V")] "").1 = .body "PAYLOAD" ∧
      (redisMiddleware extHappy [("maltepe", "V")] "").1 ≠ .body "V" ∧
      (redisMiddleware extHappy [("maltepe", "V")] "").2.2 =
        [.cacheGet "", .envRead "API_KEY",
          .upstreamFetch (weatherURL "maltepe" "k"),
          .cacheSet "" "PAYLOAD"] ∧
      assocLookup (redisMiddleware extHappy [("maltepe", "V")] "").2.1
          "maltepe" = some "V" ∧
      assocLookup (redisMiddleware extHappy [("maltepe", "V")] "").2.1 "" =
        some "PAYLOAD" :=
  ⟨rfl, by decide, rfl, rfl, rfl⟩

/-- C2 (amended): an empty lookup key is not normalized before the
cache access: the request's first action is a cache `GET` with key
`""`, every cache `SET` of the request uses key `""`, every upstream
fetch uses the default-key URL (the normalization to `"maltepe"`
happens only inside `getWeatherValue` and affects only the upstream
URL), and the default key's `"maltepe"` cache entry is never touched —
so the empty key and the default key resolve to distinct cache
entries. -/
theorem C2_empty_key_uses_empty_cache_entry (ext : Ext) (cache : Cache) :
    (redisMiddleware ext cache "").2.2.head? = some (.cacheGet "") ∧
      setsOnlyKey (redisMiddleware ext cache "").2.2 "" = true ∧
      fetchesOnlyURL (redisMiddleware ext cache "").2.2
        (weatherURL "maltepe" (ext.env "API_KEY")) = true ∧
      assocLookup (redisMiddleware ext cache "").2.1 "maltepe" =
        assocLookup cache "maltepe" := by
  have hne : ¬(("" : String) = "maltepe") := by decide
  have hcalls : getWeatherCalls ext "" (ext.env "API_KEY") = [] ∨
      getWeatherCalls ext "" (ext.env "API_KEY") =
        [weatherURL "maltepe" (ext.env "API_KEY")] := by
    simpa using getWeatherCalls_shape ext "" (ext.env "API_KEY")
  rcases redisMiddleware_cases ext cache "" with
    ⟨val, hget, hmid⟩ | ⟨hget, henv, hmid⟩ | ⟨hget, henv, e, hfetch, hmid⟩ |
    ⟨hget, henv, w, e', hfetch, hmar, hmid⟩ |
    ⟨hget, henv, w, data, e', hfetch, hmar, hset, hmid⟩ |
    ⟨hget, henv, w, data, hfetch, hmar, hset, hmid⟩ <;>
    rw [hmid] <;>
    rcases hcalls with hc | hc <;>
    simp [hc, setsOnlyKey, fetchesOnlyURL, assocLookup_insert, hne]

/-- C5: an admitted cache miss whose upstream fetch fails (request
creation, network, non-200 status, or decode failure — all surfaced as
`getWeatherValue` errors) yields a 500 response naming the failure and
performs no cache write, leaving the store unchanged; a later request
for the same key whose fetch, marshal and cache store succeed returns
the payload and populates the cache entry. -/
theorem C5_fetch_failure_no_cache_write (ext ext' : Ext) (cache : Cache)
    (country : String) (e : String) (w : Weather) (data : String)
    (hmiss : getRedisValue ext cache country = none)
    (henv : ext.env "API_KEY" ≠ "")
    (hfail : getWeatherValue ext country (ext.env "API_KEY") = .error e)
    (hmiss' : getRedisValue ext' cache country = none)
    (henv' : ext'.env "API_KEY" ≠ "")
    (hok : getWeatherValue ext' country (ext'.env "API_KEY") = .ok w)
    (hmar : ext'.marshal w = .ok data)
    (hset : ext'.setErr = none) :
    (redisMiddleware ext cache country).1 =
        .httpError ("getWeatherValue Error : " ++ e) 500 ∧
      (redisMiddleware ext cache country).2.1 = cache ∧
      noCacheSet (redisMiddleware ext cache country).2.2 = true ∧
      (redisMiddleware ext' (redisMiddleware ext cache country).2.1
          country).1 = .body data ∧
      assocLookup (redisMiddleware ext'
          (redisMiddleware ext cache country).2.1 country).2.1 country =
        some data := by
  have hmid : redisMiddleware ext cache country =
      (.httpError ("getWeatherValue Error : " ++ e) 500, cache,
        [.cacheGet country, .envRead "API_KEY"] ++
          (getWeatherCalls ext country (ext.env "API_KEY")).map
            .upstreamFetch) := by
    simp [redisMiddleware, hmiss, henv, hfail]
  refine ⟨by rw [hmid], by rw [hmid], ?_, ?_, ?_⟩
  · rw [hmid]
    rcases getWeatherCalls_shape ext country (ext.env "API_KEY") with hc | hc <;>
      rw [hc] <;> rfl
  · rw [hmid]
    simp [redisMiddleware, setRedisValue, hmiss', henv', hok, hmar, hset]
  · rw [hmid]
    simp [redisMiddleware, setRedisValue, hmiss', henv', hok, hmar, hset,
      assocLookup_insert]

theorem C5_fetch_failure_no_cache_write_witness :
    (redisMiddleware ext500 [] "paris").1 =
        .httpError
          ("getWeatherValue Error : " ++ "status code : 500 , message : ERR")
          500 ∧
      (redisMiddleware ext500 [] "paris").2.1 = [] ∧
      noCacheSet (redisMiddleware ext500 [] "paris").2.2 = true ∧
      (redisMiddleware extHappy (redisMiddleware ext500 [] "paris").2.1
          "paris").1 = .body "PAYLOAD" ∧
      assocLookup (redisMiddleware extHappy
          (redisMiddleware ext500 [] "paris").2.1 "paris").2.1 "paris" =
        some "PAYLOAD" :=
  C5_fetch_failure_no_cache_write ext500 extHappy [] "paris"
    "status code : 500 , message : ERR" weather0 "PAYLOAD" rfl (by decide)
    rfl rfl (by decide) rfl rfl rfl

/-- C6: a request whose cache `GET` returns a value is answered with
exactly that cached payload and its whole trace is the single `GET` —
no upstream fetch and no cache `SET` occur; moreover every admitted
request performs at most one cache read and at most one cache write. -/
theorem C6_cache_hit_short_circuits (ext : Ext) (cache : Cache)
    (country : String) :
    (∀ val, getRedisValue ext cache country = some val →
        redisMiddleware ext cache country =
          (.body val, cache, [.cacheGet country])) ∧
      countCacheGets (redisMiddleware ext cache country).2.2 ≤ 1 ∧
      countCacheSets (redisMiddleware ext cache country).2.2 ≤ 1 := by
  have hcalls := getWeatherCalls_shape ext country (ext.env "API_KEY")
  refine ⟨fun val hval => by simp [redisMiddleware, hval], ?_, ?_⟩ <;>
    rcases redisMiddleware_cases ext cache country with
      ⟨val, hget, hmid⟩ | ⟨hget, henv, hmid⟩ | ⟨hget, henv, e, hfetch, hmid⟩ |
      ⟨hget, henv, w, e', hfetch, hmar, hmid⟩ |
      ⟨hget, henv, w, data, e', hfetch, hmar, hset, hmid⟩ |
      ⟨hget, henv, w, data, hfetch, hmar, hset, hmid⟩ <;>
    rw [hmid] <;>
    rcases hcalls with hc | hc <;>
    simp [hc, countCacheGets, countCacheSets]

theorem C6_cache_hit_short_circuits_witness :
    redisMiddleware extHappy [("paris", "V")] "paris" =
        (.body "V", [("paris", "V")], [.cacheGet "paris"]) ∧
      countCacheGets
          (redisMiddleware extHappy [("paris", "V")] "paris").2.2 ≤ 1 ∧
      countCacheSets
          (redisMiddleware extHappy [("paris", "V")] "paris").2.2 ≤ 1 := by
  obtain ⟨h1, h2, h3⟩ :=
    C6_cache_hit_short_circuits extHappy [("paris", "V")] "paris"
  exact ⟨h1 "V" rfl, h2, h3⟩

/-- C8: the cache round-trip is byte-exact.  A miss that fetches,
marshals to `data` and stores successfully answers `data` and leaves
exactly `data` under the key; a following request that hits the cache
answers exactly those bytes again (its trace being the single `GET`). -/
theorem C8_roundtrip_bytes_exact (ext ext' : Ext) (cache : Cache)
    (country : String) (w : Weather) (data : String)
    (hmiss : getRedisValue ext cache country = none)
    (henv : ext.env "API_KEY" ≠ "")
    (hok : getWeatherValue ext country (ext.env "API_KEY") = .ok w)
    (hmar : ext.marshal w = .ok data)
    (hset : ext.setErr = none)
    (hget' : ext'.getErr = false) :
    (redisMiddleware ext cache country).1 = .body data ∧
      assocLookup (redisMiddleware ext cache country).2.1 country =
        some data ∧
      redisMiddleware ext' (redisMiddleware ext cache country).2.1 country =
        (.body data, (redisMiddleware ext cache country).2.1,
          [.cacheGet country]) := by
  have hmid : redisMiddleware ext cache country =
      (.body data, assocInsert cache country data,
        [.cacheGet country, .envRead "API_KEY"] ++
          (getWeatherCalls ext country (ext.env "API_KEY")).map
            .upstreamFetch ++ [.cacheSet country data]) := by
    simp [redisMiddleware, setRedisValue, hmiss, henv, hok, hmar, hset]
  have hget2 : getRedisValue ext' (assocInsert cache country data) country =
      some data := by
    simp [getRedisValue, hget', assocLookup_insert]
  refine ⟨by rw [hmid], ?_, ?_⟩
  · rw [hmid]
    simp [assocLookup_insert]
  · rw [hmid]
    simp [redisMiddleware, hget2]

theorem C8_roundtrip_bytes_exact_witness :
    (redisMiddleware extHappy [] "paris").1 = .body "PAYLOAD" ∧
      assocLookup (redisMiddleware extHappy [] "paris").2.1 "paris" =
        some "PAYLOAD" ∧
      redisMiddleware extHappy (redisMiddleware extHappy [] "paris").2.1
          "paris" =
        (.body "PAYLOAD", (redisMiddleware extHappy [] "paris").2.1,
          [.cacheGet "paris"]) :=
  C8_roundtrip_bytes_exact extHappy extHappy [] "paris" weather0 "PAYLOAD"
    rfl (by decide) rfl rfl rfl rfl

end WeatherApi
